import Mathlib

/-!
Verification of the wrapp-archive/httplib middleware library.

The repository ships three middleware pieces: a JSON-schema validation gate
(`ValidateJSONSchema`), a panic-recovery wrapper (`Recover`) and a request
logger (`LogRequest`) built on a decorating response writer
(`loggedResponse`), plus `RunHTTP` which assembles the chain.

The repository contains two historical revisions of the validation gate: an
early-exit one (src/validate.go) and an aggregate-and-report-all one
(src/unnamed/part_001, first revision).  The spec resolves this ambiguity in
favour of the aggregate variant (spec §4.1 step 3 and §9), so that revision
is the one embedded here; behaviours shared by both revisions (forwarding,
engine errors, empty body, the sticky-decoder loop) coincide.

Shallow-embedding conventions:
* Request bodies and written byte slices are `String`s; `Request.body` holds
  the outcome of `ioutil.ReadAll(r.Body)` (`Except.error` = transport read
  failure).
* Decoded JSON values are opaque to the middleware (it only hands them to
  the schema engine), so documents are an abstract inductive `Doc`;
  `Doc.null` is Go's zero value for `interface{}` (the value validated by
  the decode-error branch).  `encoding/json`'s view of a buffer is a
  parameter `decode : String → List Doc × DecTail`: the documents decoded
  in order, then either clean end of input or a syntax error.
* `schema.Validate` is a parameter `Doc → Except String GoResult`;
  `Except.error` is an internal engine failure, `Except.ok` a judgment.
* A response writer is observed as the list of `WriteHeader`/`Write` calls
  it receives (`WOp`); log output is a list of `LogRecord`s.
-/

/-- A decoded top-level JSON value.  The middleware never inspects decoded
values; it only passes them to the schema engine, so they are abstract.
`null` is the zero value of `interface{}` (what `dec.Decode` leaves behind
when it fails), `val n` an arbitrary other document. -/
inductive Doc
  | null
  | val (n : Nat)
deriving DecidableEq

/-- How `json.Decoder` leaves a buffer after yielding its documents:
clean end of input (`io.EOF`) or a JSON syntax error.  A `json.Decoder`
error is sticky: once `Decode` has returned a non-EOF error, every later
call returns that same error (`encoding/json` stores it in `dec.err`). -/
inductive DecTail
  | eof
  | jsonErr (msg : String)
deriving DecidableEq

/-- Abstraction of `gojsonschema.Result`: the validity judgment and the
error descriptions of one document. -/
structure GoResult where
  valid : Bool
  errors : List String
deriving DecidableEq

/-- `ValidationResult` (src/unnamed/part_001): a validity flag plus the
reported errors, as serialised into the 400 response. -/
structure ValidationResult where
  valid : Bool
  errors : List String
deriving DecidableEq

/-- `ErrorValidationResult` (src/unnamed/part_001): repackages a
`gojsonschema.Result` into the reported `ValidationResult`. -/
def ErrorValidationResult (vr : GoResult) : ValidationResult :=
  ⟨vr.valid, vr.errors⟩

/-- One call observed by a response writer: `WriteHeader(status)` or
`Write(b)`. -/
inductive WOp
  | writeHeader (status : Nat)
  | write (b : String)
deriving DecidableEq

/-- `http.Error(w, msg, code)`: sets the status, then writes the message
followed by a newline. -/
def httpError (msg : String) (code : Nat) : List WOp :=
  [WOp.writeHeader code, WOp.write (msg ++ "\n")]

/-- Models `json.Marshal` of a `ValidationResult`.  The spec scopes exact
wire text out (§1); this rendering is deterministic and keeps the
per-document structure (validity flag plus error list). -/
def marshalVR (v : ValidationResult) : String :=
  "\x7b\"valid\":" ++ (if v.valid then "true" else "false") ++
    ",\"errors\":[" ++ String.intercalate "," v.errors ++ "]\x7d"

/-- One server-side log record.  Field formatting, remote address, timing
and message text are scoped out by the spec (§1); what remains is the kind
of record, and for request records the observed status/size and severity. -/
inductive LogRecord
  | panicTraceback (traceback : String)
  | request (status : Nat) (size : Nat) (isError : Bool)
deriving DecidableEq

/-- What one invocation of an embedded `http.Handler` does: the writer
calls it performs, the log records it emits, and whether it panics
(carrying the panic payload; writes made before the panic have already
reached the writer). -/
structure MWResult where
  events : List WOp
  logs : List LogRecord
  panicMsg : Option String
deriving DecidableEq

instance : DecidableEq (Except String String) := fun x y =>
  match x, y with
  | .error a, .error b =>
      if h : a = b then .isTrue (h ▸ rfl)
      else .isFalse fun hh => h (by injection hh)
  | .error _, .ok _ => .isFalse fun hh => Except.noConfusion hh
  | .ok _, .error _ => .isFalse fun hh => Except.noConfusion hh
  | .ok a, .ok b =>
      if h : a = b then .isTrue (h ▸ rfl)
      else .isFalse fun hh => h (by injection hh)

/-- The slice of `*http.Request` the verified middleware reads: the body.
`body` is the outcome of reading it (`Except.error` = transport failure). -/
structure Request where
  body : Except String String
deriving DecidableEq

/-- An embedded `http.Handler`. -/
def Handler : Type := Request → MWResult

/-- Result of the validation-gate middleware on one request. -/
inductive GateOutcome
  /-- The gate itself responded; the wrapped handler was not invoked. -/
  | respond (events : List WOp)
  /-- The gate replaced the request body with a fresh reader over
  `newBody` and invoked the wrapped handler exactly once; `res` is that
  single invocation's behaviour. -/
  | forward (newBody : String) (res : MWResult)
  /-- The decode loop never exits: no response, no handler call. -/
  | diverges
deriving DecidableEq

/-- Exit state of the gate's decode/validate loop
(src/unnamed/part_001:57-84). -/
inductive LoopExit
  | done (results : List ValidationResult) (errCount : Nat)
  | engine (msg : String)
  | stuck
deriving DecidableEq

/-- The gate's `for` loop (src/unnamed/part_001:57-84), one equation per
decoder outcome.  While documents remain, each is validated: an engine
error returns 500 immediately (`.engine`), otherwise its result is
appended and the error count bumped when invalid.  When the decoder is
exhausted: `io.EOF` breaks out (`.done`); on a JSON syntax error the
source appends an "Invalid JSON" result and then validates the zero value
`nil` — and because `json.Decoder` errors are sticky, the next iteration
decodes the very same error again, so the loop can only leave via an
engine error on `null`; otherwise it repeats forever, which is modelled as
`.stuck` (see `decodeLoopFuel` below for the iteration-faithful version
this collapses). -/
def decodeLoop (v : Doc → Except String GoResult) :
    List Doc → DecTail → List ValidationResult → Nat → LoopExit
  | [], .eof, rs, n => .done rs n
  | [], .jsonErr _, _, _ =>
      match v .null with
      | .error e => .engine e
      | .ok _ => .stuck
  | d :: ds, t, rs, n =>
      match v d with
      | .error e => .engine e
      | .ok r =>
          decodeLoop v ds t (rs ++ [ErrorValidationResult r])
            (n + if r.valid then 0 else 1)

/-- Iteration-faithful, fuel-indexed version of the same loop, keeping the
sticky decoder state explicit: every iteration after a syntax error sees
the same error again, appends an "Invalid JSON" result, and validates the
zero value.  `none` means `fuel` iterations did not exit the loop. -/
def decodeLoopFuel (v : Doc → Except String GoResult) :
    Nat → List Doc → DecTail → List ValidationResult → Nat → Option LoopExit
  | 0, _, _, _, _ => none
  | _ + 1, [], .eof, rs, n => some (.done rs n)
  | fuel + 1, [], .jsonErr m, rs, n =>
      match v .null with
      | .error e => some (.engine e)
      | .ok r =>
          decodeLoopFuel v fuel [] (.jsonErr m)
            (rs ++ [⟨false, ["Invalid JSON: " ++ m]⟩, ErrorValidationResult r])
            ((n + 1) + if r.valid then 0 else 1)
  | fuel + 1, d :: ds, t, rs, n =>
      match v d with
      | .error e => some (.engine e)
      | .ok r =>
          decodeLoopFuel v fuel ds t (rs ++ [ErrorValidationResult r])
            (n + if r.valid then 0 else 1)

/-- `ValidateJSONSchema`'s per-request handler (src/unnamed/part_001:48-98;
the spec-preferred aggregate revision).  Schema compilation — which panics
at construction time on a bad schema document — is already done: `v` is
the compiled schema's `Validate` and `decode` is `encoding/json`'s view of
a buffer.  Read the whole body (failure → 400); run the decode/validate
loop; on an engine error → 500; if any document was invalid → 400 with one
serialised result per line; otherwise replace the body with a fresh reader
over the original bytes and invoke the wrapped handler. -/
def ValidateJSONSchema (v : Doc → Except String GoResult)
    (decode : String → List Doc × DecTail)
    (next : Handler) (r : Request) : GateOutcome :=
  match r.body with
  | .error e => .respond (httpError ("Failed to read body: " ++ e) 400)
  | .ok buf =>
      match decodeLoop v (decode buf).1 (decode buf).2 [] 0 with
      | .engine e => .respond (httpError ("Failed to validate: " ++ e) 500)
      | .stuck => .diverges
      | .done results count =>
          if count > 0 then
            .respond (WOp.writeHeader 400 ::
              results.flatMap fun vr => [WOp.write (marshalVR vr), WOp.write "\n"])
          else
            .forward buf (next ⟨.ok buf⟩)

/-- Whether a gate outcome invoked the wrapped handler. -/
def invokesHandler : GateOutcome → Bool
  | .forward _ _ => true
  | _ => false

/-- The first status set on a writer-call trace, if any. -/
def firstStatus : List WOp → Option Nat
  | [] => none
  | WOp.writeHeader s :: _ => some s
  | WOp.write _ :: rest => firstStatus rest

/-- The HTTP status of a gate outcome's response, if a response exists. -/
def gateStatus : GateOutcome → Option Nat
  | .respond evs => firstStatus evs
  | .forward _ res => firstStatus res.events
  | .diverges => none

/-- `loggedResponse` (src/web.go:21-26, src/unnamed/part_000): the
per-request record kept by the logging middleware's decorating writer —
status (0 until set), cumulative byte count, and (in the part_000
revision) the accumulated response body text.  The start timestamp is
scoped out (wall-clock time). -/
structure LoggedResponse where
  status : Nat := 0
  size : Nat := 0
  body : String := ""
deriving DecidableEq

/-- The underlying `http.ResponseWriter` behind a `loggedResponse`,
observed as the calls it has received. -/
structure UnderWriter where
  written : List String := []
  headers : List Nat := []
deriving DecidableEq

/-- A `loggedResponse` together with its underlying writer. -/
structure WState where
  l : LoggedResponse := {}
  u : UnderWriter := {}
deriving DecidableEq

/-- `loggedResponse.Write` (src/web.go:28-36): if no status was set yet,
deem it 200; pass `b` through to the underlying writer; add the count the
underlying writer returns (not `len(b)`) to the recorded size; return the
underlying writer's (count, error) pair unchanged.  The underlying
writer's return behaviour is the parameter `ub`: given the slices it has
already received and the new slice, it yields the (count, error) pair of
`l.w.Write(b)`. -/
def lrWrite (ub : List String → String → Nat × Option String)
    (s : WState) (b : String) : WState × Nat × Option String :=
  let l := if s.l.status = 0 then { s.l with status := 200 } else s.l
  let r := ub s.u.written b
  (⟨{ l with body := l.body ++ b, size := l.size + r.1 },
    { s.u with written := s.u.written ++ [b] }⟩, r)

/-- `loggedResponse.WriteHeader` (src/web.go:38-41): forward the status to
the underlying writer, then record it (overwriting any earlier value). -/
def lrWriteHeader (s : WState) (st : Nat) : WState :=
  ⟨{ s.l with status := st }, { s.u with headers := s.u.headers ++ [st] }⟩

/-- Run a handler's writer calls through a `loggedResponse`. -/
def runOps (ub : List String → String → Nat × Option String)
    (s : WState) : List WOp → WState
  | [] => s
  | WOp.writeHeader st :: rest => runOps ub (lrWriteHeader s st) rest
  | WOp.write b :: rest => runOps ub (lrWrite ub s b).1 rest

/-- The behaviour of `net/http`'s real writer when every write succeeds in
full: `Write(b)` returns `(len(b), nil)`. -/
def fullWrite : List String → String → Nat × Option String :=
  fun _ b => (b.length, none)

/-- `runtime/debug.Stack()`: opaque, non-empty diagnostic text. -/
def debugStack : String := "goroutine 1 [running]:"

/-- `Recover` (src/web.go:44-57): run the wrapped handler under a deferred
`recover`.  If the handler panics, the writes it made before panicking
have already reached the writer; the middleware then logs the traceback
and writes status 500, and the panic does not propagate.  A normal
completion passes through untouched.  (The part_000 revision additionally
writes the message and stack into the 500 body; the logged-traceback /
500 / no-propagation contract is the same.) -/
def Recover (handler : Handler) : Handler := fun r =>
  let res := handler r
  match res.panicMsg with
  | some _ =>
      { events := res.events ++ [WOp.writeHeader 500],
        logs := res.logs ++ [LogRecord.panicTraceback debugStack],
        panicMsg := none }
  | none => res

/-- `LogRequest` (src/web.go:60-85): wrap the writer in a
`loggedResponse`, invoke the handler, then emit exactly one request
record carrying the observed status and size, at error severity iff the
status is at least 400.  There is no `recover` here: if the handler
panics, the log line after `ServeHTTP` never runs and the panic
propagates unchanged. -/
def LogRequest (handler : Handler) : Handler := fun r =>
  let res := handler r
  match res.panicMsg with
  | some _ => res
  | none =>
      let lw := (runOps fullWrite {} res.events).l
      { res with logs := res.logs ++
          [LogRecord.request lw.status lw.size (decide (400 ≤ lw.status))] }

/-- The handler chain `RunHTTP` installs (src/web.go:92):
`LogRequest(Recover(h, log), log)` — logging is the outermost layer and
recovery directly wraps the application handler.  Listener binding, the
port lookup and the fatal-on-listen-failure policy are scoped out. -/
def runHTTPHandler (h : Handler) : Handler := LogRequest (Recover h)

/-- Whether a writer-call trace contains any `Write`. -/
def hasWrite : List WOp → Bool
  | [] => false
  | WOp.write _ :: _ => true
  | WOp.writeHeader _ :: rest => hasWrite rest

/-- The first status explicitly set in a trace, if any. -/
def firstHeaderStatus : List WOp → Option Nat
  | [] => none
  | WOp.writeHeader st :: _ => some st
  | WOp.write _ :: rest => firstHeaderStatus rest

/-- The last status explicitly set in a trace, if any. -/
def lastHeaderStatus : List WOp → Option Nat
  | [] => none
  | WOp.writeHeader st :: rest => some ((lastHeaderStatus rest).getD st)
  | WOp.write _ :: rest => lastHeaderStatus rest

/-- Total length of the byte slices a trace writes. -/
def sumWrites : List WOp → Nat
  | [] => 0
  | WOp.write b :: rest => b.length + sumWrites rest
  | WOp.writeHeader _ :: rest => sumWrites rest

/-- Spec-side definition, following the claim's words: the recorded status
is "the first status the handler explicitly set via WriteHeader, or 200 if
no status was set before the first write" (0 when the handler neither set
a status nor wrote). -/
def specStatusFirst (ops : List WOp) : Nat :=
  (firstHeaderStatus ops).getD (if hasWrite ops then 200 else 0)

/-- Spec-side definition of the amended status rule: the last status
explicitly set via WriteHeader (each call overwrites the record), or 200
if none was set but something was written, else 0. -/
def specStatusLast (ops : List WOp) : Nat :=
  (lastHeaderStatus ops).getD (if hasWrite ops then 200 else 0)


/-- Bool form of "every status set in the trace is a legal (positive)
HTTP status"; `net/http` panics on `WriteHeader(0)`, so real handler
traces satisfy it. -/
def headersPositive : List WOp → Bool
  | [] => true
  | WOp.writeHeader st :: rest => decide (0 < st) && headersPositive rest
  | WOp.write _ :: rest => headersPositive rest

/-! ### Concrete instances used to evaluate the middleware

Each group models one concrete scenario: a schema engine (what
`schema.Validate` answers per document), a decoder view (what
`json.Decoder` yields on the relevant buffer), a downstream handler and a
request. -/

/-- A schema accepting every document. -/
def gateWV : Doc → Except String GoResult := fun _ => .ok ⟨true, []⟩

/-- Decoder view of the two-document body `gateWBody`. -/
def gateWDec : String → List Doc × DecTail :=
  fun _ => ([Doc.val 1, Doc.val 2], DecTail.eof)

/-- A downstream handler that answers 201 "ok". -/
def gateWNext : Handler := fun _ => ⟨[WOp.writeHeader 201, WOp.write "ok"], [], none⟩

/-- A two-document request body. -/
def gateWBody : String := "\x7b\"id\":1\x7d\x7b\"id\":2\x7d"

/-- Schema engine rejecting every proper document but accepting `null`
(e.g. `\x7b"type":["object","null"]\x7d`-style): used for the bodies that mix a
schema-invalid document with trailing malformed JSON. -/
def c2v : Doc → Except String GoResult := fun d =>
  match d with
  | .null => .ok ⟨true, []⟩
  | .val _ => .ok ⟨false, ["expected an object"]⟩

/-- `json.Decoder` view of the body `"5 \x7d"`: the number 5 decodes, then
the stray brace is a syntax error (sticky from then on). -/
def c2dec : String → List Doc × DecTail :=
  fun _ => ([Doc.val 5], DecTail.jsonErr "invalid character after top-level value")

def c2next : Handler := fun _ => ⟨[WOp.writeHeader 204], [], none⟩

def c2req : Request := ⟨.ok "5 \x7d"⟩

/-- A schema engine that accepts everything, `null` included (e.g. the
empty schema). -/
def c4v : Doc → Except String GoResult := fun _ => .ok ⟨true, []⟩

/-- `json.Decoder` view of the body `"\x7d"`: an immediate syntax error,
sticky from then on. -/
def c4dec : String → List Doc × DecTail :=
  fun _ => ([], DecTail.jsonErr "invalid character looking for beginning of value")

def c4next : Handler := fun _ => ⟨[WOp.writeHeader 204], [], none⟩

def c4req : Request := ⟨.ok "\x7d"⟩

/-- Per-document judgments for the mixed-validity report scenario:
document 1 valid, every other invalid for a missing `id`. -/
def c3f : Doc → GoResult := fun d =>
  match d with
  | .val 1 => ⟨true, []⟩
  | _ => ⟨false, ["id is required"]⟩

/-- The engine returning exactly the judgments `c3f`. -/
def c3v : Doc → Except String GoResult := fun d => .ok (c3f d)

/-- Decoder view of a two-document body whose second document is
invalid. -/
def c3dec : String → List Doc × DecTail :=
  fun _ => ([Doc.val 1, Doc.val 2], DecTail.eof)

def c3next : Handler := fun _ => ⟨[WOp.writeHeader 204], [], none⟩

def c3req : Request := ⟨.ok "\x7b\"id\":1\x7d\x7b\"name\":2\x7d"⟩

/-- An engine that fails internally (not a validity judgment) on
document 2 and accepts everything else. -/
def c5v : Doc → Except String GoResult := fun d =>
  match d with
  | .val 2 => .error "schema engine fault"
  | _ => .ok ⟨true, []⟩

/-- Decoder view of a three-document body. -/
def c5dec : String → List Doc × DecTail :=
  fun _ => ([Doc.val 1, Doc.val 2, Doc.val 3], DecTail.eof)

def c5next : Handler := fun _ => ⟨[WOp.writeHeader 204], [], none⟩

def c5req : Request := ⟨.ok "\x7b\x7d\x7b\x7d\x7b\x7d"⟩

/-- A schema requiring an object: used for the empty-body scenario. -/
def c6v : Doc → Except String GoResult := fun _ => .ok ⟨false, ["expected an object"]⟩

/-- Decoder view of the empty buffer: `io.EOF` at once, zero documents. -/
def c6dec : String → List Doc × DecTail := fun _ => ([], DecTail.eof)

def c6next : Handler := fun _ => ⟨[WOp.writeHeader 200, WOp.write "hi"], [], none⟩

def c6req : Request := ⟨.ok ""⟩

/-- A handler that panics on the request whose body reads "boom" (after a
partial write) and answers normally otherwise. -/
def c7h : Handler := fun r =>
  match r.body with
  | .ok "boom" => ⟨[WOp.write "partial"], [], some "boom"⟩
  | _ => ⟨[WOp.writeHeader 200, WOp.write "hello"], [], none⟩

def c7req : Request := ⟨.ok "boom"⟩

def c7req2 : Request := ⟨.ok "fine"⟩

/-- A handler that panics immediately. -/
def c8h : Handler := fun _ => ⟨[], [], some "boom"⟩

def c8req : Request := ⟨.ok ""⟩

/-! ### Supporting lemmas -/

theorem lrWrite_size_eq (ub : List String → String → Nat × Option String)
    (s : WState) (b : String) :
    ((lrWrite ub s b).1).l.size = s.l.size + (ub s.u.written b).1 := by
  simp only [lrWrite]
  split <;> simp

theorem lrWrite_status_eq (ub : List String → String → Nat × Option String)
    (s : WState) (b : String) :
    ((lrWrite ub s b).1).l.status = if s.l.status = 0 then 200 else s.l.status := by
  simp only [lrWrite]
  split <;> simp_all

/-- When the decoder yields `docs` then clean EOF and the engine judges
every document (`f` giving the judgment), the loop finishes with one
result per document, in order, and counts the invalid ones. -/
theorem decodeLoop_judged (v : Doc → Except String GoResult)
    (f : Doc → GoResult) (docs : List Doc) :
    ∀ (rs : List ValidationResult) (n : Nat),
      (∀ d ∈ docs, v d = .ok (f d)) →
      decodeLoop v docs .eof rs n =
        .done (rs ++ docs.map fun d => ErrorValidationResult (f d))
          (n + docs.countP fun d => !(f d).valid) := by
  induction docs with
  | nil => intro rs n _; simp [decodeLoop]
  | cons d ds ih =>
      intro rs n h
      have hd : v d = .ok (f d) := h d (List.mem_cons_self d ds)
      have hds : ∀ x ∈ ds, v x = .ok (f x) :=
        fun x hx => h x (List.mem_cons_of_mem d hx)
      simp only [decodeLoop, hd]
      rw [ih _ _ hds]
      congr 1
      · simp
      · rw [List.countP_cons]
        cases hfv : (f d).valid <;> (simp [hfv]; try omega)

/-- The loop aborts at the first engine error: the result does not depend
on the documents after the failing one, nor on how the buffer ends. -/
theorem decodeLoop_engine (v : Doc → Except String GoResult)
    (d : Doc) (e : String) (herr : v d = .error e)
    (ds₂ : List Doc) (t : DecTail) :
    ∀ (ds₁ : List Doc) (rs : List ValidationResult) (n : Nat),
      (∀ x ∈ ds₁, ∃ gr, v x = .ok gr) →
      decodeLoop v (ds₁ ++ d :: ds₂) t rs n = .engine e := by
  intro ds₁
  induction ds₁ with
  | nil => intro rs n _; simp [decodeLoop, herr]
  | cons a as ih =>
      intro rs n h
      obtain ⟨gr, hgr⟩ := h a (List.mem_cons_self a as)
      simp only [List.cons_append, decodeLoop, hgr]
      exact ih _ _ fun x hx => h x (List.mem_cons_of_mem a hx)

/-- On a buffer ending in clean EOF, the fuel-indexed loop agrees with
`decodeLoop` as soon as the fuel exceeds the number of documents. -/
theorem decodeLoopFuel_eof (v : Doc → Except String GoResult)
    (docs : List Doc) :
    ∀ (fuel : Nat) (rs : List ValidationResult) (n : Nat),
      docs.length < fuel →
      decodeLoopFuel v fuel docs .eof rs n = some (decodeLoop v docs .eof rs n) := by
  induction docs with
  | nil =>
      intro fuel rs n hf
      cases fuel with
      | zero => omega
      | succ f => simp [decodeLoopFuel, decodeLoop]
  | cons d ds ih =>
      intro fuel rs n hf
      cases fuel with
      | zero => omega
      | succ f =>
          simp only [decodeLoopFuel, decodeLoop]
          cases hv : v d with
          | error e => rfl
          | ok r =>
              exact ih f _ _ (by simp at hf; omega)

/-- The sticky decode error: when the engine accepts `null`, no amount of
fuel makes the post-error loop exit — the source loop runs forever. -/
theorem decodeLoopFuel_sticky (v : Doc → Except String GoResult)
    (m : String) (r : GoResult) (hnull : v Doc.null = .ok r) :
    ∀ (fuel : Nat) (rs : List ValidationResult) (n : Nat),
      decodeLoopFuel v fuel [] (.jsonErr m) rs n = none := by
  intro fuel
  induction fuel with
  | zero => intro rs n; rfl
  | succ f ih =>
      intro rs n
      simp only [decodeLoopFuel, hnull]
      exact ih _ _

/-- The only exit from the post-error loop: an engine failure on `null`,
reached on the very first post-error iteration. -/
theorem decodeLoopFuel_sticky_engine (v : Doc → Except String GoResult)
    (m e : String) (hnull : v Doc.null = .error e)
    (fuel : Nat) (rs : List ValidationResult) (n : Nat) :
    decodeLoopFuel v (fuel + 1) [] (.jsonErr m) rs n = some (.engine e) := by
  simp [decodeLoopFuel, hnull]

theorem runOps_size (ops : List WOp) :
    ∀ s : WState, (runOps fullWrite s ops).l.size = s.l.size + sumWrites ops := by
  induction ops with
  | nil => intro s; simp [runOps, sumWrites]
  | cons op rest ih =>
      intro s
      cases op with
      | writeHeader st => simp [runOps, sumWrites, lrWriteHeader, ih]
      | write b =>
          simp only [runOps, sumWrites, ih]
          rw [lrWrite_size_eq]
          simp [fullWrite]
          omega

theorem runOps_status (ops : List WOp) :
    ∀ s : WState, (∀ st, WOp.writeHeader st ∈ ops → 0 < st) →
      (runOps fullWrite s ops).l.status =
        (lastHeaderStatus ops).getD
          (if hasWrite ops && decide (s.l.status = 0) then 200 else s.l.status) := by
  induction ops with
  | nil => intro s _; simp [runOps, lastHeaderStatus, hasWrite]
  | cons op rest ih =>
      intro s hpos
      cases op with
      | writeHeader st =>
          have hst : 0 < st := hpos st (List.mem_cons_self _ _)
          have hrest : ∀ x, WOp.writeHeader x ∈ rest → 0 < x :=
            fun x hx => hpos x (List.mem_cons_of_mem _ hx)
          simp only [runOps, lastHeaderStatus]
          rw [ih _ hrest]
          cases hl : lastHeaderStatus rest with
          | some x => simp [hl]
          | none =>
              have : (lrWriteHeader s st).l.status = st := rfl
              simp [hl, lrWriteHeader, Nat.pos_iff_ne_zero.mp hst]
      | write b =>
          have hrest : ∀ x, WOp.writeHeader x ∈ rest → 0 < x :=
            fun x hx => hpos x (List.mem_cons_of_mem _ hx)
          simp only [runOps, lastHeaderStatus, hasWrite]
          rw [ih _ hrest]
          cases hl : lastHeaderStatus rest with
          | some x => simp [hl]
          | none =>
              rw [lrWrite_status_eq]
              by_cases h0 : s.l.status = 0 <;> simp [hl, h0]


theorem headersPositive_sound (ops : List WOp) (h : headersPositive ops = true) :
    ∀ st, WOp.writeHeader st ∈ ops → 0 < st := by
  induction ops with
  | nil => intro st hst; simp at hst
  | cons op rest ih =>
      intro st hst
      cases op with
      | writeHeader x =>
          simp only [headersPositive, Bool.and_eq_true, decide_eq_true_eq] at h
          rcases List.mem_cons.mp hst with heq | hmem
          · cases heq; exact h.1
          · exact ih h.2 st hmem
      | write b =>
          simp only [headersPositive] at h
          rcases List.mem_cons.mp hst with heq | hmem
          · cases heq
          · exact ih h st hmem

/-! ### Claims -/

/-- C1: for every request body that reads successfully and whose decoded
JSON documents all validate against the compiled schema, the gate
replaces the request body with a fresh reader over exactly the original
bytes and invokes the wrapped handler exactly once — the outcome is
exactly the handler's own behaviour on the request carrying the original
bytes, with no other modification to the request or response. -/
theorem gate_valid_body_forwards (v : Doc → Except String GoResult)
    (decode : String → List Doc × DecTail) (next : Handler) (r : Request)
    (buf : String) (docs : List Doc) (f : Doc → GoResult)
    (hread : r.body = .ok buf)
    (hdec : decode buf = (docs, DecTail.eof))
    (hjudged : ∀ d ∈ docs, v d = .ok (f d))
    (hvalid : ∀ d ∈ docs, (f d).valid = true) :
    ValidateJSONSchema v decode next r = .forward buf (next ⟨.ok buf⟩) := by
  have hcount : (docs.countP fun d => !(f d).valid) = 0 :=
    List.countP_eq_zero.mpr fun d hd => by simp [hvalid d hd]
  simp only [ValidateJSONSchema, hread, hdec]
  rw [decodeLoop_judged v f docs [] 0 hjudged, hcount]
  rfl

theorem gate_valid_body_forwards_witness :
    gateWDec gateWBody = ([Doc.val 1, Doc.val 2], DecTail.eof) ∧
    ValidateJSONSchema gateWV gateWDec gateWNext ⟨.ok gateWBody⟩ =
      .forward gateWBody (gateWNext ⟨.ok gateWBody⟩) :=
  ⟨rfl,
    gate_valid_body_forwards gateWV gateWDec gateWNext ⟨.ok gateWBody⟩
      gateWBody [Doc.val 1, Doc.val 2] (fun _ => ⟨true, []⟩)
      rfl rfl (fun _ _ => rfl) (fun _ _ => rfl)⟩

/-- C2 (code bug): the claim promises that a body containing a
schema-invalid document always gets a 400 and no handler call; the code
violates it on the body `"5 \x7d"` (an invalid document followed by a JSON
syntax error): the sticky decoder error makes the loop spin forever, so
no response of any status is ever written.  The fifth conjunct shows that
no iteration budget makes the source loop exit. -/
theorem gate_invalid_doc_garbage_hangs :
    (Doc.val 5 ∈ (c2dec "5 \x7d").1 ∧
      c2v (Doc.val 5) = .ok ⟨false, ["expected an object"]⟩) ∧
    ValidateJSONSchema c2v c2dec c2next c2req = GateOutcome.diverges ∧
    invokesHandler (ValidateJSONSchema c2v c2dec c2next c2req) = false ∧
    gateStatus (ValidateJSONSchema c2v c2dec c2next c2req) = none ∧
    (∀ fuel rs n, decodeLoopFuel c2v fuel []
        (DecTail.jsonErr "invalid character after top-level value") rs n = none) :=
  ⟨⟨by simp [c2dec], rfl⟩, rfl, rfl, rfl,
    fun fuel rs n => decodeLoopFuel_sticky c2v _ ⟨true, []⟩ rfl fuel rs n⟩

/-- C3: on a well-formed multi-document body with at least one
schema-invalid document, the gate keeps decoding and validating to the
end and the 400 response reports every document's outcome, in order (one
serialised result and one newline per document), with the handler not
invoked. -/
theorem gate_reports_every_document (v : Doc → Except String GoResult)
    (decode : String → List Doc × DecTail) (next : Handler) (r : Request)
    (buf : String) (docs : List Doc) (f : Doc → GoResult)
    (hread : r.body = .ok buf)
    (hdec : decode buf = (docs, DecTail.eof))
    (_hmulti : 2 ≤ docs.length)
    (hjudged : ∀ d ∈ docs, v d = .ok (f d))
    (hinvalid : ∃ d ∈ docs, (f d).valid = false) :
    ValidateJSONSchema v decode next r =
      .respond (WOp.writeHeader 400 ::
        (docs.map fun d => ErrorValidationResult (f d)).flatMap
          fun vr => [WOp.write (marshalVR vr), WOp.write "\n"]) := by
  have hcount0 : (docs.countP fun d => !(f d).valid) ≠ 0 := by
    intro h0
    obtain ⟨d, hd, hdv⟩ := hinvalid
    have hnd := List.countP_eq_zero.mp h0 d hd
    simp [hdv] at hnd
  simp only [ValidateJSONSchema, hread, hdec]
  rw [decodeLoop_judged v f docs [] 0 hjudged]
  simp [Nat.pos_of_ne_zero hcount0]

theorem gate_reports_every_document_witness :
    (c3dec (c3req.body.toOption.getD "") = ([Doc.val 1, Doc.val 2], DecTail.eof) ∧
      c3f (Doc.val 2) = ⟨false, ["id is required"]⟩) ∧
    ValidateJSONSchema c3v c3dec c3next c3req =
      .respond (WOp.writeHeader 400 ::
        ([Doc.val 1, Doc.val 2].map fun d => ErrorValidationResult (c3f d)).flatMap
          fun vr => [WOp.write (marshalVR vr), WOp.write "\n"]) :=
  ⟨⟨rfl, rfl⟩,
    gate_reports_every_document c3v c3dec c3next c3req
      (c3req.body.toOption.getD "") [Doc.val 1, Doc.val 2] c3f
      rfl rfl (by decide) (fun _ _ => rfl)
      ⟨Doc.val 2, by simp, rfl⟩⟩

/-- C4 (code bug): the claim promises a 4xx response, no handler call and
normal termination for malformed JSON; on the body `"\x7d"` (a bare decode
error) the sticky decoder error makes the source loop spin forever — the
first conjunct shows no iteration budget makes it exit — so no response
is ever produced. -/
theorem gate_malformed_body_hangs :
    (∀ fuel rs n, decodeLoopFuel c4v fuel []
        (DecTail.jsonErr "invalid character looking for beginning of value") rs n = none) ∧
    ValidateJSONSchema c4v c4dec c4next c4req = GateOutcome.diverges ∧
    invokesHandler (ValidateJSONSchema c4v c4dec c4next c4req) = false ∧
    gateStatus (ValidateJSONSchema c4v c4dec c4next c4req) = none :=
  ⟨fun fuel rs n => decodeLoopFuel_sticky c4v _ ⟨true, []⟩ rfl fuel rs n,
    rfl, rfl, rfl⟩

/-- C5: an internal engine failure while validating a document yields the
500 error response and no handler call, and aborts immediately: the
outcome does not depend on the documents after the failing one nor on how
the buffer ends. -/
theorem gate_engine_error_500_aborts (v : Doc → Except String GoResult)
    (decode : String → List Doc × DecTail) (next : Handler) (r : Request)
    (buf : String) (ds₁ : List Doc) (d : Doc) (ds₂ : List Doc)
    (t : DecTail) (e : String)
    (hread : r.body = .ok buf)
    (hdec : decode buf = (ds₁ ++ d :: ds₂, t))
    (hok : ∀ x ∈ ds₁, ∃ gr, v x = .ok gr)
    (herr : v d = .error e) :
    ValidateJSONSchema v decode next r =
      .respond (httpError ("Failed to validate: " ++ e) 500) ∧
    invokesHandler (ValidateJSONSchema v decode next r) = false := by
  have heq : ValidateJSONSchema v decode next r =
      .respond (httpError ("Failed to validate: " ++ e) 500) := by
    simp only [ValidateJSONSchema, hread, hdec]
    rw [decodeLoop_engine v d e herr ds₂ t ds₁ [] 0 hok]
  exact ⟨heq, by rw [heq]; rfl⟩

theorem gate_engine_error_500_aborts_witness :
    (c5dec "\x7b\x7d\x7b\x7d\x7b\x7d" = ([Doc.val 1, Doc.val 2, Doc.val 3], DecTail.eof) ∧
      c5v (Doc.val 2) = .error "schema engine fault") ∧
    (ValidateJSONSchema c5v c5dec c5next c5req =
        .respond (httpError ("Failed to validate: " ++ "schema engine fault") 500) ∧
      invokesHandler (ValidateJSONSchema c5v c5dec c5next c5req) = false) :=
  ⟨⟨rfl, rfl⟩,
    gate_engine_error_500_aborts c5v c5dec c5next c5req
      "\x7b\x7d\x7b\x7d\x7b\x7d" [Doc.val 1] (Doc.val 2) [Doc.val 3] DecTail.eof
      "schema engine fault" rfl rfl
      (fun x hx => by
        obtain rfl := List.mem_singleton.mp hx
        exact ⟨⟨true, []⟩, rfl⟩)
      rfl⟩

/-- C6: an empty request body decodes to zero documents, is vacuously
valid, and is forwarded unchanged (body replaced by a reader over the
same empty bytes) with the handler invoked — even under a schema that
would reject every document, since nothing is validated. -/
theorem gate_empty_body_vacuously_valid (v : Doc → Except String GoResult)
    (decode : String → List Doc × DecTail) (next : Handler) (r : Request)
    (hread : r.body = .ok "")
    (hdec : decode "" = ([], DecTail.eof)) :
    ValidateJSONSchema v decode next r = .forward "" (next ⟨.ok ""⟩) ∧
    invokesHandler (ValidateJSONSchema v decode next r) = true := by
  have heq : ValidateJSONSchema v decode next r = .forward "" (next ⟨.ok ""⟩) := by
    simp [ValidateJSONSchema, hread, hdec, decodeLoop]
  exact ⟨heq, by rw [heq]; rfl⟩

theorem gate_empty_body_vacuously_valid_witness :
    (c6req.body = .ok "" ∧ c6dec "" = ([], DecTail.eof)) ∧
    (ValidateJSONSchema c6v c6dec c6next c6req = .forward "" (c6next ⟨.ok ""⟩) ∧
      invokesHandler (ValidateJSONSchema c6v c6dec c6next c6req) = true) :=
  ⟨⟨rfl, rfl⟩, gate_empty_body_vacuously_valid c6v c6dec c6next c6req rfl rfl⟩

/-- C7: a panic inside a handler wrapped by `Recover` is intercepted (it
does not propagate), a diagnostic traceback is logged, and status 500 is
written; and an independent request on which the handler completes
normally passes through `Recover` completely untouched. -/
theorem recover_intercepts_panic (h : Handler) (r r2 : Request) (m : String)
    (evs : List WOp) (lgs : List LogRecord)
    (hp : h r = ⟨evs, lgs, some m⟩)
    (hn : (h r2).panicMsg = none) :
    Recover h r = ⟨evs ++ [WOp.writeHeader 500],
        lgs ++ [LogRecord.panicTraceback debugStack], none⟩ ∧
    Recover h r2 = h r2 := by
  constructor
  · simp [Recover, hp]
  · simp [Recover, hn]

theorem recover_intercepts_panic_witness :
    (c7h c7req = ⟨[WOp.write "partial"], [], some "boom"⟩ ∧
      (c7h c7req2).panicMsg = none) ∧
    (Recover c7h c7req = ⟨[WOp.write "partial"] ++ [WOp.writeHeader 500],
        [] ++ [LogRecord.panicTraceback debugStack], none⟩ ∧
      Recover c7h c7req2 = c7h c7req2) :=
  ⟨⟨rfl, rfl⟩,
    recover_intercepts_panic c7h c7req c7req2 "boom"
      [WOp.write "partial"] [] rfl rfl⟩

/-- C8 counterexample: the claim says the chain is recovery outside
logging (`Recover (LogRequest h)`), with logging innermost.  On a
panicking handler the chain `RunHTTP` actually builds
(`LogRequest (Recover h)`) emits a request log record (logging ran after
recovery, i.e. outside it), while the claimed order would propagate the
panic past the logger and emit none — the two differ. -/
theorem runHTTP_order_counterexample :
    runHTTPHandler c8h c8req =
      ⟨[WOp.writeHeader 500],
        [LogRecord.panicTraceback debugStack, LogRecord.request 500 0 true], none⟩ ∧
    Recover (LogRequest c8h) c8req =
      ⟨[WOp.writeHeader 500], [LogRecord.panicTraceback debugStack], none⟩ ∧
    runHTTPHandler c8h c8req ≠ Recover (LogRequest c8h) c8req :=
  ⟨rfl, rfl, by decide⟩

/-- C8 (amended): `RunHTTP` wires logging as the outermost wrapper around
recovery, and recovery directly wraps the application handler: a panic in
the handler is caught by recovery, converted into a 500, and the logging
layer — running outside recovery — still emits its request record,
computed from the post-recovery writer trace.  (A fault inside the
logging middleware's own logic would consequently NOT be caught.) -/
theorem runHTTP_logging_wraps_recovery (h : Handler) (r : Request) (m : String)
    (evs : List WOp) (lgs : List LogRecord)
    (hp : h r = ⟨evs, lgs, some m⟩) :
    runHTTPHandler h r =
      ⟨evs ++ [WOp.writeHeader 500],
        (lgs ++ [LogRecord.panicTraceback debugStack]) ++
          [LogRecord.request
            (runOps fullWrite {} (evs ++ [WOp.writeHeader 500])).l.status
            (runOps fullWrite {} (evs ++ [WOp.writeHeader 500])).l.size
            (decide (400 ≤ (runOps fullWrite {} (evs ++ [WOp.writeHeader 500])).l.status))],
        none⟩ := by
  simp [runHTTPHandler, LogRequest, Recover, hp]

theorem runHTTP_logging_wraps_recovery_witness :
    c8h c8req = ⟨[], [], some "boom"⟩ ∧
    runHTTPHandler c8h c8req =
      ⟨[] ++ [WOp.writeHeader 500],
        ([] ++ [LogRecord.panicTraceback debugStack]) ++
          [LogRecord.request
            (runOps fullWrite {} ([] ++ [WOp.writeHeader 500])).l.status
            (runOps fullWrite {} ([] ++ [WOp.writeHeader 500])).l.size
            (decide (400 ≤ (runOps fullWrite {} ([] ++ [WOp.writeHeader 500])).l.status))],
        none⟩ :=
  ⟨rfl, runHTTP_logging_wraps_recovery c8h c8req "boom" [] [] rfl⟩

/-- C9 counterexample: the claim says the recorded status equals the FIRST
status the handler explicitly set; but `loggedResponse.WriteHeader`
overwrites the record, so after `WriteHeader(201); WriteHeader(404)` the
recorded status is 404, not 201. -/
theorem observer_first_status_counterexample :
    firstHeaderStatus [WOp.writeHeader 201, WOp.writeHeader 404] = some 201 ∧
    specStatusFirst [WOp.writeHeader 201, WOp.writeHeader 404] = 201 ∧
    (runOps fullWrite {} [WOp.writeHeader 201, WOp.writeHeader 404]).l.status = 404 ∧
    (runOps fullWrite {} [WOp.writeHeader 201, WOp.writeHeader 404]).l.status ≠
      specStatusFirst [WOp.writeHeader 201, WOp.writeHeader 404] :=
  ⟨rfl, rfl, rfl, by decide⟩

/-- C9 (amended): after a handler performs any sequence of writes and
(legal, positive) WriteHeader calls through the observer, with the
underlying writer accepting every write in full, the recorded byte count
equals the sum of the written lengths exactly, and the recorded status
equals the LAST status explicitly set via WriteHeader (each call
overwrites the record), or 200 if none was set before the first write. -/
theorem observer_size_and_last_status (ops : List WOp)
    (hpos : headersPositive ops = true) :
    (runOps fullWrite {} ops).l.size = sumWrites ops ∧
    (runOps fullWrite {} ops).l.status = specStatusLast ops := by
  constructor
  · have h := runOps_size ops {}
    simpa using h
  · rw [runOps_status ops {} (headersPositive_sound ops hpos)]
    simp [specStatusLast]

theorem observer_size_and_last_status_witness :
    headersPositive [WOp.writeHeader 201, WOp.write "ab", WOp.write "c"] = true ∧
    ((runOps fullWrite {} [WOp.writeHeader 201, WOp.write "ab", WOp.write "c"]).l.size =
        sumWrites [WOp.writeHeader 201, WOp.write "ab", WOp.write "c"] ∧
      (runOps fullWrite {} [WOp.writeHeader 201, WOp.write "ab", WOp.write "c"]).l.status =
        specStatusLast [WOp.writeHeader 201, WOp.write "ab", WOp.write "c"]) :=
  ⟨rfl, observer_size_and_last_status
      [WOp.writeHeader 201, WOp.write "ab", WOp.write "c"] rfl⟩

/-- C10: `loggedResponse.Write` returns exactly the (count, error) pair
of the underlying writer, passes the byte slice through unaltered, and
adds the returned count — not the requested length — to the recorded
size; the part_000 revision also buffers the same unaltered bytes into
the recorded body. -/
theorem observer_write_transparent (ub : List String → String → Nat × Option String)
    (s : WState) (b : String) :
    (lrWrite ub s b).2 = ub s.u.written b ∧
    ((lrWrite ub s b).1).u.written = s.u.written ++ [b] ∧
    ((lrWrite ub s b).1).l.size = s.l.size + (ub s.u.written b).1 ∧
    ((lrWrite ub s b).1).l.body = s.l.body ++ b := by
  refine ⟨rfl, rfl, lrWrite_size_eq ub s b, ?_⟩
  simp only [lrWrite]
  split <;> rfl
